import Mathlib

/-!
Verification of the spimex trading-results ingestion service against its
natural-language specification.

The embedding follows the repository sources:
- `src/core/repository/trading_results_repo.py` (date window, bulletin parser,
  record builder, ingestion coordinator, temp-file cleanup),
- `src/core/crud/crud_trading_results.py` (`add_to_db`, `get_last_results`),
- `src/deps/deps.py` and `src/core/db/session.py` (session lifecycle).

Python `datetime.date` objects are modelled as year/month/day triples of the
proleptic Gregorian calendar restricted to years 1..9999 (Python's own range);
date subtraction and comparison go through the day ordinal, exactly as in
CPython.  Pandas data frames are modelled as rectangular lists of cells; a cell
is a string, a number, or NaN.  Fallible Python code (slicing an empty string,
unreadable spreadsheets, int() conversion failures, HTTP errors) is modelled
with `Except`/`Option`.
-/

-- decidable equality on Except, used to evaluate run outcomes concretely
instance {e a : Type} [DecidableEq e] [DecidableEq a] : DecidableEq (Except e a) := fun x y =>
  match x, y with
  | Except.ok v, Except.ok w =>
    if h : v = w then isTrue (by rw [h]) else isFalse (fun hc => by cases hc; exact h rfl)
  | Except.error v, Except.error w =>
    if h : v = w then isTrue (by rw [h]) else isFalse (fun hc => by cases hc; exact h rfl)
  | Except.ok _, Except.error _ => isFalse (fun hc => Except.noConfusion hc)
  | Except.error _, Except.ok _ => isFalse (fun hc => Except.noConfusion hc)

-- ### Python dates ###

def isLeap (y : Int) : Bool := (y % 4 == 0 && y % 100 != 0) || y % 400 == 0

def daysInMonth (y m : Int) : Int :=
  if m = 2 then (if isLeap y then 29 else 28)
  else if m = 4 ∨ m = 6 ∨ m = 9 ∨ m = 11 then 30
  else 31

-- days-from-civil, shifted so that the ordinal of 0001-01-01 is 1,
-- matching Python's date.toordinal()
def daysFromCivil (y m d : Int) : Int :=
  let y2 := if m ≤ 2 then y - 1 else y
  let era := y2 / 400
  let yoe := y2 - era * 400
  let doy := (153 * (if 2 < m then m - 3 else m + 9) + 2) / 5 + d - 1
  let doe := yoe * 365 + yoe / 4 - yoe / 100 + doy
  era * 146097 + doe - 305

structure PyDate where
  y : Int
  m : Int
  d : Int
deriving DecidableEq, Repr

-- Python date objects only ever hold a real calendar date in years 1..9999
def PyDate.Valid (t : PyDate) : Prop :=
  1 ≤ t.y ∧ t.y ≤ 9999 ∧ 1 ≤ t.m ∧ t.m ≤ 12 ∧ 1 ≤ t.d ∧ t.d ≤ daysInMonth t.y t.m

instance (t : PyDate) : Decidable t.Valid := by
  unfold PyDate.Valid; infer_instance

def PyDate.toOrdinal (t : PyDate) : Int := daysFromCivil t.y t.m t.d

-- date - timedelta(days=1)
def PyDate.pred (t : PyDate) : PyDate :=
  if 1 < t.d then ⟨t.y, t.m, t.d - 1⟩
  else if 1 < t.m then ⟨t.y, t.m - 1, daysInMonth t.y (t.m - 1)⟩
  else ⟨t.y - 1, 12, 31⟩

-- date + timedelta(days=1); used only to invert pred in proofs
def PyDate.succ (t : PyDate) : PyDate :=
  if t.d < daysInMonth t.y t.m then ⟨t.y, t.m, t.d + 1⟩
  else if t.m < 12 then ⟨t.y, t.m + 1, 1⟩
  else ⟨t.y + 1, 1, 1⟩

-- (a - b).days of Python date subtraction
def pyDateDiffDays (a b : PyDate) : Int := a.toOrdinal - b.toOrdinal

-- ### str(date).replace("-", "") : the "YYYYMMDD" form ###

def digitChar (n : Nat) : Char := Char.ofNat (48 + n % 10)

def pad2 (n : Nat) : List Char := [digitChar (n / 10), digitChar n]

def pad4 (n : Nat) : List Char :=
  [digitChar (n / 1000), digitChar (n / 100), digitChar (n / 10), digitChar n]

-- str(d) gives zero-padded "YYYY-MM-DD"; .replace("-", "") leaves "YYYYMMDD"
def pyDateStr (t : PyDate) : String := ⟨pad4 t.y.toNat ++ pad2 t.m.toNat ++ pad2 t.d.toNat⟩

-- ### TradingResultsRepo.__prepare_date_list ###

-- the while-loop `while current_date >= target_date`, descending one day per
-- iteration; the fuel argument is exactly the loop's iteration bound, and the
-- Valid guard makes explicit that Python date objects are valid by construction
def prepareDateListAux : Nat → PyDate → PyDate → List String
  | 0, _, _ => []
  | Nat.succ fuel, current, target =>
    if current.Valid then
      if target.toOrdinal ≤ current.toOrdinal then
        pyDateStr current :: prepareDateListAux fuel current.pred target
      else []
    else []

def prepareDateList (today target : PyDate) : List String :=
  prepareDateListAux (today.toOrdinal + 1 - target.toOrdinal).toNat today target

-- ### BulletinParser: TradingResultsRepo.__get_data_from_excel ###

inductive Cell
  | na
  | str (s : String)
  | num (n : Int)
deriving DecidableEq, Repr

abbrev Frame := List (List Cell)

def markerText : String := "Единица измерения: Метрическая тонна"

def listInfix (pat : List Char) : List Char → Bool
  | [] => pat.isEmpty
  | c :: t => pat.isPrefixOf (c :: t) || listInfix pat t

-- Python `pat in s` on strings
def strContains (s pat : String) : Bool := listInfix pat.data s.data

-- `marker in row.iloc[1]`; the TypeError raised when the cell is not a string
-- is caught by the scan and the row is skipped
def rowMatchesMarker (row : List Cell) : Bool :=
  match row.getD 1 Cell.na with
  | Cell.str s => strContains s markerText
  | _ => false

-- target = 0 initially, overwritten with the index of the first matching row
def findAnchor (df : Frame) : Nat :=
  match df.findIdx? rowMatchesMarker with
  | some i => i
  | none => 0

-- df.replace("-", 0) followed by df.fillna(0), cell-wise
def normCell (c : Cell) : Cell :=
  match c with
  | Cell.str s => if s = "-" then Cell.num 0 else Cell.str s
  | Cell.na => Cell.num 0
  | Cell.num n => Cell.num n

-- df.iloc[:, [1, 2, 3, 4, 5, -1]] on one row
def selectCols (row : List Cell) : List Cell :=
  [row.getD 1 Cell.na, row.getD 2 Cell.na, row.getD 3 Cell.na,
   row.getD 4 Cell.na, row.getD 5 Cell.na, row.getLast?.getD Cell.na]

-- .astype(int) of one cell value; none where Python's int() would raise
def cellToInt? (c : Cell) : Option Int :=
  match c with
  | Cell.num n => some n
  | Cell.str s => s.toInt?
  | Cell.na => none

def lastCell (row : List Cell) : Cell := row.getLast?.getD Cell.na

-- rows anchor+2 .. len-3: column-selected, normalized, kept iff the last
-- column converts to a strictly positive integer; astype failure aborts
def processRows (body : List (List Cell)) : Except Unit (List (List Cell)) :=
  let sel := (body.take (body.length - 2)).map (fun r => (selectCols r).map normCell)
  if sel.all (fun r => (cellToInt? (lastCell r)).isSome) then
    Except.ok (sel.filter (fun r => 0 < (cellToInt? (lastCell r)).getD 0))
  else Except.error ()

def parseFrame (df : Frame) : Except Unit (List (List Cell)) :=
  processRows (df.drop (findAnchor df + 2))

-- ### RecordBuilder: TradingResultsRepo.__prepare_objects ###

structure SpimexTradingResults where
  exchange_product_id : String
  exchange_product_name : String
  oil_id : String
  delivery_basis_id : String
  delivery_basis_name : String
  delivery_type_id : String
  volume : String
  total : String
  count : String
  date : PyDate
deriving DecidableEq, Repr

-- Python str() of a cell value
def pyStr (c : Cell) : String :=
  match c with
  | Cell.str s => s
  | Cell.num n => toString n
  | Cell.na => "nan"

def natOfDigits (l : List Char) : Nat :=
  l.foldl (fun acc c => acc * 10 + (c.toNat - 48)) 0

-- datetime.strptime(str_date, "%Y%m%d").date()
def parseYYYYMMDD (s : String) : Option PyDate :=
  if s.data.length = 8 ∧ s.data.all Char.isDigit then
    let t : PyDate := ⟨natOfDigits (s.data.take 4), natOfDigits ((s.data.drop 4).take 2),
                       natOfDigits (s.data.drop 6)⟩
    if t.Valid then some t else none
  else none

-- one iteration of the loop body of __prepare_objects; string slicing
-- data[0][:4] / data[0][4:7] never fails, but data[0][-1] raises IndexError on
-- the empty string and any slicing raises TypeError when data[0] is not a str
def buildRecord (data : List Cell) (str_date : String) : Except Unit SpimexTradingResults :=
  match data.getD 0 Cell.na with
  | Cell.str code =>
    match code.data.getLast? with
    | none => Except.error ()
    | some lastc =>
      match parseYYYYMMDD str_date with
      | none => Except.error ()
      | some t =>
        Except.ok
          { exchange_product_id := code
            exchange_product_name := pyStr (data.getD 1 Cell.na)
            oil_id := ⟨code.data.take 4⟩
            delivery_basis_id := ⟨(code.data.drop 4).take 3⟩
            delivery_basis_name := pyStr (data.getD 2 Cell.na)
            delivery_type_id := ⟨[lastc]⟩
            volume := pyStr (data.getD 3 Cell.na)
            total := pyStr (data.getD 4 Cell.na)
            count := pyStr (data.getD 5 Cell.na)
            date := t }
  | _ => Except.error ()

-- ### Filesystem, session, and the ingestion coordinator ###

-- files on disk: name paired with content; content none models a file pandas
-- cannot read (pd.read_excel raises)
abbrev FS := List (String × Option Frame)

def excelName (str_date : String) : String := str_date ++ "_oil_data.xls"

-- os.path.exists plus pd.read_excel on f"{str_date}_oil_data.xls"
def fsLookup (fs : FS) (name : String) : Option (Option Frame) :=
  (fs.find? (fun p => p.1 = name)).map Prod.snd

-- the generator of __get_data_from_excel run over the whole window: dates
-- without a file are skipped; any parse error aborts the whole run
def getDataFromExcel : List String → FS → Except Unit (List (List Cell × String))
  | [], _ => Except.ok []
  | d :: rest, fs =>
    match fsLookup fs (excelName d) with
    | none => getDataFromExcel rest fs
    | some none => Except.error ()
    | some (some df) =>
      match parseFrame df with
      | Except.error e => Except.error e
      | Except.ok rows =>
        match getDataFromExcel rest fs with
        | Except.error e => Except.error e
        | Except.ok tail => Except.ok (rows.map (fun r => (r, d)) ++ tail)

def prepareObjects (dateList : List String) (fs : FS) :
    Except Unit (List SpimexTradingResults) :=
  match getDataFromExcel dateList fs with
  | Except.error e => Except.error e
  | Except.ok pairs => pairs.mapM (fun p => buildRecord p.1 p.2)

-- __remove_excel: os.remove(f"{str_date}_oil_data.xls") for every window date
-- whose file exists
def removeExcel (dateList : List String) (fs : FS) : FS :=
  dateList.foldl (fun acc d => acc.filter (fun p => p.1 ≠ excelName d)) fs

-- the SQLAlchemy AsyncSession held by the request scope of deps.get_session
structure DBSession where
  pending : List SpimexTradingResults
  committed : List SpimexTradingResults
deriving DecidableEq, Repr

-- db.add_all(objects): stages the batch in the session
def DBSession.add_all (s : DBSession) (objs : List SpimexTradingResults) : DBSession :=
  { s with pending := s.pending ++ objs }

-- session.commit(): makes staged rows durable; the repository code never calls it
def DBSession.commit (s : DBSession) : DBSession :=
  { pending := [], committed := s.committed ++ s.pending }

-- session close at the end of the `async with async_session()` scope in
-- deps.get_session: uncommitted work is rolled back
def DBSession.close (s : DBSession) : DBSession :=
  { pending := [], committed := s.committed }

structure HTTPError where
  status_code : Nat
  detail : String
deriving DecidableEq, Repr

def ingestionError : HTTPError := ⟨400, "Возникла ошибка при выполнении!"⟩

def successMessage : String := "Выполнение завершено!"

/-- Modelled from the spec: `SpimexClient.download_spimex_bulletins` is not
part of this repository's sources; per the spec's BulletinFetcher contract it
writes each available date's bulletin to `<YYYYMMDD>_oil_data.xls` and
tolerates absent dates.  `downloadFiles` are the files the client creates
during the call and `downloadFails` says whether the call raises after
creating them.  `storeFails` models an exception raised by the store layer
inside `add_to_db`. -/
structure RunEnv where
  today : PyDate
  target : PyDate
  fsInit : FS
  downloadFiles : FS
  downloadFails : Bool
  storeFails : Bool
  session : DBSession
deriving Repr

structure RunOutcome where
  result : Except HTTPError String
  fs : FS
  session : DBSession
  -- the batch handed to crud_trading_results.add_to_db ([] when the run
  -- aborts before reaching it)
  batch : List SpimexTradingResults
deriving Repr

-- TradingResultsRepo.get_spimex_trading_results: build the window, download,
-- parse and build the batch, stage it in the session; any exception is caught
-- and surfaced as one generic HTTP 400; the finally-block cleanup always runs;
-- the session is closed (without commit) when the request scope ends
def getSpimexTradingResults (env : RunEnv) : RunOutcome :=
  let dateList := prepareDateList env.today env.target
  let fs1 := env.downloadFiles ++ env.fsInit
  if env.downloadFails then
    { result := Except.error ingestionError, fs := removeExcel dateList fs1,
      session := env.session.close, batch := [] }
  else
    match prepareObjects dateList fs1 with
    | Except.error _ =>
      { result := Except.error ingestionError, fs := removeExcel dateList fs1,
        session := env.session.close, batch := [] }
    | Except.ok objs =>
      if env.storeFails then
        { result := Except.error ingestionError, fs := removeExcel dateList fs1,
          session := env.session.close, batch := objs }
      else
        { result := Except.ok successMessage, fs := removeExcel dateList fs1,
          session := (env.session.add_all objs).close, batch := objs }

-- ### TradingResultsRepo.__check_date / get_last_trading_dates ###

-- crud.fetch_one_trading_result_by_date(...) is not None
def check_date (store : List SpimexTradingResults) (d : PyDate) : Bool :=
  store.any (fun r => r.date = d)

-- __get_dates_for_period: today, today-1, ... for `days` days
def getDatesForPeriod : Nat → PyDate → List PyDate
  | 0, _ => []
  | Nat.succ n, current => current :: getDatesForPeriod n current.pred

-- get_last_trading_dates: the period dates that have at least one stored record;
-- this is the only caller of the per-date existence check
def getLastTradingDates (store : List SpimexTradingResults) (today : PyDate)
    (days : Nat) : List PyDate :=
  (getDatesForPeriod days today).filter (check_date store)

-- ### CRUDSpimexTradingResults.get_last_results ###

-- the head of the distinct-dates-descending query: the maximum trade date
def listMaxInt : List Int → Option Int
  | [] => none
  | x :: t =>
    match listMaxInt t with
    | none => some x
    | some m => some (max x m)

-- __add_filters_to_query: a facet filters only when truthy (not None, not "")
def applyFacet (get : SpimexTradingResults → String) (v : Option String)
    (rows : List SpimexTradingResults) : List SpimexTradingResults :=
  match v with
  | none => rows
  | some s => if s.isEmpty then rows else rows.filter (fun r => get r = s)

def addFiltersToQuery (rows : List SpimexTradingResults)
    (oil_id delivery_type_id delivery_basis_id : Option String) :
    List SpimexTradingResults :=
  applyFacet (fun r => r.delivery_basis_id) delivery_basis_id
    (applyFacet (fun r => r.delivery_type_id) delivery_type_id
      (applyFacet (fun r => r.oil_id) oil_id rows))

def emptyStoreError : HTTPError := ⟨404, "Database is empty!"⟩

def get_last_results (store : List SpimexTradingResults)
    (oil_id delivery_type_id delivery_basis_id : Option String) :
    Except HTTPError (List SpimexTradingResults) :=
  match listMaxInt (store.map (fun r => r.date.toOrdinal)) with
  | none => Except.error emptyStoreError
  | some lastOrd =>
    Except.ok (addFiltersToQuery (store.filter (fun r => r.date.toOrdinal = lastOrd))
      oil_id delivery_type_id delivery_basis_id)

-- ### Concrete fixtures used by witnesses and counterexamples ###

-- a minimal bulletin: marker row, one caption row, one data row, two footer rows
def testFrame : Frame :=
  [[Cell.na, Cell.str markerText, Cell.na, Cell.na, Cell.na, Cell.na, Cell.na],
   [Cell.na, Cell.str "Код", Cell.str "Наименование", Cell.na, Cell.na, Cell.na, Cell.na],
   [Cell.na, Cell.str "A100ABW1", Cell.str "Product", Cell.str "Basis",
    Cell.num 10, Cell.num 100, Cell.num 5],
   [Cell.na, Cell.str "Итого", Cell.na, Cell.na, Cell.na, Cell.na, Cell.na],
   [Cell.na, Cell.na, Cell.na, Cell.na, Cell.na, Cell.na, Cell.na]]

-- the single data row of testFrame after column selection and normalization
def testRow : List Cell :=
  [Cell.str "A100ABW1", Cell.str "Product", Cell.str "Basis",
   Cell.num 10, Cell.num 100, Cell.num 5]

def existingRecord : SpimexTradingResults :=
  { exchange_product_id := "A100ABW1"
    exchange_product_name := "Product"
    oil_id := "A100"
    delivery_basis_id := "ABW"
    delivery_basis_name := "Basis"
    delivery_type_id := "1"
    volume := "10"
    total := "100"
    count := "5"
    date := ⟨2024, 1, 5⟩ }

-- a run whose single window date 2024-01-05 already has a persisted record
def c1Env : RunEnv :=
  { today := ⟨2024, 1, 5⟩
    target := ⟨2024, 1, 5⟩
    fsInit := []
    downloadFiles := [("20240105_oil_data.xls", some testFrame)]
    downloadFails := false
    storeFails := false
    session := { pending := [], committed := [existingRecord] } }

-- the same run against an empty store
def c3Env : RunEnv := { c1Env with session := { pending := [], committed := [] } }

-- five rows, none carrying the metric-ton marker, whose only data row has a
-- zero last column
def noMarkerFrame : Frame :=
  [[Cell.na, Cell.str "Шапка", Cell.na, Cell.na, Cell.na, Cell.na, Cell.na],
   [Cell.na, Cell.str "Код", Cell.str "Наименование", Cell.na, Cell.na, Cell.na, Cell.na],
   [Cell.na, Cell.str "B200CDX2", Cell.str "Product2", Cell.str "Basis2",
    Cell.num 7, Cell.num 70, Cell.num 0],
   [Cell.na, Cell.str "Итого", Cell.na, Cell.na, Cell.na, Cell.na, Cell.na],
   [Cell.na, Cell.na, Cell.na, Cell.na, Cell.na, Cell.na, Cell.na]]

-- ### Calendar arithmetic lemmas ###

theorem dfc_succ_day (y m d : Int) :
    daysFromCivil y m (d + 1) = daysFromCivil y m d + 1 := by
  simp only [daysFromCivil]
  split_ifs <;> omega

theorem dfc_feb_boundary (y : Int) :
    daysFromCivil y 3 1 = daysFromCivil y 2 (daysInMonth y 2) + 1 := by
  have hleap : isLeap y = true ↔ (y % 4 = 0 ∧ y % 100 ≠ 0) ∨ y % 400 = 0 := by
    simp [isLeap, Bool.or_eq_true, Bool.and_eq_true, beq_iff_eq, bne_iff_ne]
  simp only [daysFromCivil, daysInMonth]
  norm_num
  rcases Bool.eq_false_or_eq_true (isLeap y) with hb | hb
  · -- leap year: February has 29 days
    have hp : (y % 4 = 0 ∧ y % 100 ≠ 0) ∨ y % 400 = 0 := hleap.mp hb
    simp only [hb]
    norm_num
    rcases hp with ⟨h4, h100⟩ | h400
    · have h400 : y % 400 ≠ 0 := by omega
      have hae : (y - 1) / 400 = y / 400 := by omega
      rw [hae]
      have hyy : y - 1 - y / 400 * 400 = (y - y / 400 * 400) - 1 := by omega
      rw [hyy]
      have hub : 1 ≤ y - y / 400 * 400 ∧ y - y / 400 * 400 ≤ 399 := by omega
      have hu4 : (y - y / 400 * 400) % 4 = y % 4 := by omega
      have hu100 : (y - y / 400 * 400) % 100 = y % 100 := by omega
      generalize y - y / 400 * 400 = u at hub hu4 hu100 ⊢
      omega
    · have hae : (y - 1) / 400 = y / 400 - 1 := by omega
      rw [hae]
      have h0 : y - y / 400 * 400 = 0 := by omega
      have h399 : y - 1 - (y / 400 - 1) * 400 = 399 := by omega
      rw [h399]
      omega
  · -- common year: February has 28 days
    have hn : ¬((y % 4 = 0 ∧ y % 100 ≠ 0) ∨ y % 400 = 0) := by
      rw [← hleap]; simp [hb]
    have h400 : y % 400 ≠ 0 := fun h => hn (Or.inr h)
    have h4 : y % 4 = 0 → y % 100 = 0 := by
      intro h; by_contra hc; exact hn (Or.inl ⟨h, hc⟩)
    simp only [hb]
    norm_num
    have hae : (y - 1) / 400 = y / 400 := by omega
    rw [hae]
    have hyy : y - 1 - y / 400 * 400 = (y - y / 400 * 400) - 1 := by omega
    rw [hyy]
    have hub : 1 ≤ y - y / 400 * 400 ∧ y - y / 400 * 400 ≤ 399 := by omega
    have hu4 : (y - y / 400 * 400) % 4 = y % 4 := by omega
    have hu100 : (y - y / 400 * 400) % 100 = y % 100 := by omega
    have hy4 : y % 4 = 0 → y % 100 = 0 := h4
    generalize y - y / 400 * 400 = u at hub hu4 hu100 ⊢
    omega

theorem dfc_month_boundary (y m : Int) (h3 : 1 ≤ m) (h4 : m ≤ 11) :
    daysFromCivil y (m + 1) 1 = daysFromCivil y m (daysInMonth y m) + 1 := by
  by_cases hm : m = 2
  · subst hm; exact dfc_feb_boundary y
  · interval_cases m <;> first
      | exact dfc_feb_boundary y
      | (simp only [daysFromCivil, daysInMonth]; norm_num; omega)

theorem dfc_year_boundary (y : Int) :
    daysFromCivil (y + 1) 1 1 = daysFromCivil y 12 31 + 1 := by
  simp only [daysFromCivil]
  norm_num
  omega

theorem PyDate.pred_toOrdinal (t : PyDate) (h : t.Valid) :
    t.pred.toOrdinal = t.toOrdinal - 1 := by
  obtain ⟨y, m, d⟩ := t
  obtain ⟨h1, h2, h3, h4, h5, h6⟩ := h
  dsimp only at h1 h2 h3 h4 h5 h6
  simp only [PyDate.pred]
  by_cases hd : 1 < d
  · rw [if_pos hd]
    have := dfc_succ_day y m (d - 1)
    simp only [PyDate.toOrdinal] at *
    have hd1 : d - 1 + 1 = d := by omega
    rw [hd1] at this
    omega
  · have hd1 : d = 1 := by omega
    subst hd1
    rw [if_neg hd]
    by_cases hm : 1 < m
    · rw [if_pos hm]
      have := dfc_month_boundary y (m - 1) (by omega) (by omega)
      simp only [PyDate.toOrdinal] at *
      have hm1 : m - 1 + 1 = m := by omega
      rw [hm1] at this
      omega
    · have hm1 : m = 1 := by omega
      subst hm1
      rw [if_neg hm]
      have := dfc_year_boundary (y - 1)
      simp only [PyDate.toOrdinal] at *
      have hy1 : y - 1 + 1 = y := by omega
      rw [hy1] at this
      omega

theorem PyDate.pred_valid (t : PyDate) (h : t.Valid) (hne : t ≠ ⟨1, 1, 1⟩) :
    t.pred.Valid := by
  obtain ⟨y, m, d⟩ := t
  obtain ⟨h1, h2, h3, h4, h5, h6⟩ := h
  dsimp only at h1 h2 h3 h4 h5 h6
  simp only [PyDate.pred, PyDate.Valid]
  by_cases hd : 1 < d
  · rw [if_pos hd]
    dsimp only
    exact ⟨h1, h2, h3, h4, by omega, by omega⟩
  · have hd1 : d = 1 := by omega
    subst hd1
    rw [if_neg hd]
    by_cases hm : 1 < m
    · rw [if_pos hm]
      dsimp only
      refine ⟨h1, h2, by omega, by omega, ?_, le_refl _⟩
      simp only [daysInMonth]
      split_ifs <;> omega
    · have hm1 : m = 1 := by omega
      subst hm1
      rw [if_neg hm]
      dsimp only
      have hy : y ≠ 1 := by
        intro hy1; subst hy1; exact hne rfl
      refine ⟨by omega, by omega, by omega, by omega, by omega, ?_⟩
      simp [daysInMonth]

theorem PyDate.one_le_toOrdinal (t : PyDate) (h : t.Valid) : 1 ≤ t.toOrdinal := by
  obtain ⟨y, m, d⟩ := t
  obtain ⟨h1, h2, h3, h4, h5, h6⟩ := h
  dsimp only at h1 h2 h3 h4 h5 h6
  have hdm : d ≤ 31 := by
    have := h6
    simp only [daysInMonth] at this
    split_ifs at this <;> omega
  simp only [PyDate.toOrdinal, daysFromCivil]
  split_ifs <;> omega

theorem PyDate.succ_day (y m d : Int) (h : d < daysInMonth y m) :
    PyDate.succ ⟨y, m, d⟩ = ⟨y, m, d + 1⟩ := by
  simp [PyDate.succ, h]

theorem PyDate.succ_month (y m d : Int) (h1 : ¬ d < daysInMonth y m) (h2 : m < 12) :
    PyDate.succ ⟨y, m, d⟩ = ⟨y, m + 1, 1⟩ := by
  simp [PyDate.succ, h1, h2]

theorem PyDate.succ_year (y m d : Int) (h1 : ¬ d < daysInMonth y m) (h2 : ¬ m < 12) :
    PyDate.succ ⟨y, m, d⟩ = ⟨y + 1, 1, 1⟩ := by
  simp [PyDate.succ, h1, h2]

theorem PyDate.pred_day (y m d : Int) (h : 1 < d) :
    PyDate.pred ⟨y, m, d⟩ = ⟨y, m, d - 1⟩ := by
  simp [PyDate.pred, h]

theorem PyDate.pred_month (y m d : Int) (h1 : ¬ 1 < d) (h2 : 1 < m) :
    PyDate.pred ⟨y, m, d⟩ = ⟨y, m - 1, daysInMonth y (m - 1)⟩ := by
  simp [PyDate.pred, h1, h2]

theorem PyDate.pred_year (y m d : Int) (h1 : ¬ 1 < d) (h2 : ¬ 1 < m) :
    PyDate.pred ⟨y, m, d⟩ = ⟨y - 1, 12, 31⟩ := by
  simp [PyDate.pred, h1, h2]

theorem daysInMonth_ge (y m : Int) : 28 ≤ daysInMonth y m ∧ daysInMonth y m ≤ 31 := by
  simp only [daysInMonth]
  split_ifs <;> omega

theorem PyDate.succ_pred (t : PyDate) (h : t.Valid) (hne : t ≠ ⟨1, 1, 1⟩) :
    t.pred.succ = t := by
  obtain ⟨y, m, d⟩ := t
  obtain ⟨h1, h2, h3, h4, h5, h6⟩ := h
  dsimp only at h1 h2 h3 h4 h5 h6
  by_cases hd : 1 < d
  · rw [PyDate.pred_day y m d hd, PyDate.succ_day y m (d - 1) (by omega)]
    simp only [PyDate.mk.injEq, and_true, true_and]
    omega
  · have hd1 : d = 1 := by omega
    subst hd1
    by_cases hm : 1 < m
    · rw [PyDate.pred_month y m 1 hd hm,
          PyDate.succ_month y (m - 1) (daysInMonth y (m - 1)) (by omega) (by omega)]
      simp only [PyDate.mk.injEq, and_true, true_and]
      omega
    · have hm1 : m = 1 := by omega
      subst hm1
      rw [PyDate.pred_year y 1 1 hd hm,
          PyDate.succ_year (y - 1) 12 31 (by simp [daysInMonth]) (by omega)]
      simp only [PyDate.mk.injEq, and_true, true_and]
      have hy : y ≠ 1 := fun hy1 => hne (by rw [hy1])
      omega

theorem PyDate.eq_min_of_ord_one (t : PyDate) (h : t.Valid) (h1 : t.toOrdinal = 1) :
    t = ⟨1, 1, 1⟩ := by
  by_contra hne
  have hv := PyDate.pred_valid t h hne
  have ho := PyDate.pred_toOrdinal t h
  have := PyDate.one_le_toOrdinal t.pred hv
  omega

theorem PyDate.toOrdinal_injOn : ∀ k : Nat, ∀ t1 t2 : PyDate, t1.Valid → t2.Valid →
    t1.toOrdinal = k → t2.toOrdinal = k → t1 = t2 := by
  intro k
  induction k with
  | zero =>
    intro t1 _ hv1 _ ho1 _
    have := PyDate.one_le_toOrdinal t1 hv1
    omega
  | succ n ih =>
    intro t1 t2 hv1 hv2 ho1 ho2
    by_cases hn : n = 0
    · subst hn
      rw [PyDate.eq_min_of_ord_one t1 hv1 (by omega),
          PyDate.eq_min_of_ord_one t2 hv2 (by omega)]
    · have hne1 : t1 ≠ ⟨1, 1, 1⟩ := by
        intro he; rw [he] at ho1
        have : (PyDate.mk 1 1 1).toOrdinal = 1 := by decide
        omega
      have hne2 : t2 ≠ ⟨1, 1, 1⟩ := by
        intro he; rw [he] at ho2
        have : (PyDate.mk 1 1 1).toOrdinal = 1 := by decide
        omega
      have hp1 := PyDate.pred_toOrdinal t1 hv1
      have hp2 := PyDate.pred_toOrdinal t2 hv2
      have hpe : t1.pred = t2.pred := by
        apply ih t1.pred t2.pred (PyDate.pred_valid t1 hv1 hne1) (PyDate.pred_valid t2 hv2 hne2)
        · omega
        · omega
      calc t1 = t1.pred.succ := (PyDate.succ_pred t1 hv1 hne1).symm
        _ = t2.pred.succ := by rw [hpe]
        _ = t2 := PyDate.succ_pred t2 hv2 hne2

-- ### Formatting lemmas ###

theorem digitChar_fin_inj : ∀ a b : Fin 10,
    Char.ofNat (48 + a.val) = Char.ofNat (48 + b.val) → a = b := by decide

theorem digitChar_inj (a b : Nat) (h : digitChar a = digitChar b) : a % 10 = b % 10 := by
  have ha : a % 10 < 10 := Nat.mod_lt _ (by norm_num)
  have hb : b % 10 < 10 := Nat.mod_lt _ (by norm_num)
  have := digitChar_fin_inj ⟨a % 10, ha⟩ ⟨b % 10, hb⟩ (by exact h)
  simpa [Fin.mk.injEq] using this

theorem pyDateStr_inj (t1 t2 : PyDate) (h1 : t1.Valid) (h2 : t2.Valid)
    (he : pyDateStr t1 = pyDateStr t2) : t1 = t2 := by
  obtain ⟨y1, m1, d1⟩ := t1
  obtain ⟨y2, m2, d2⟩ := t2
  obtain ⟨a1, a2, a3, a4, a5, a6⟩ := h1
  obtain ⟨b1, b2, b3, b4, b5, b6⟩ := h2
  dsimp only at a1 a2 a3 a4 a5 a6 b1 b2 b3 b4 b5 b6
  have a6' : d1 ≤ 31 := le_trans a6 (daysInMonth_ge y1 m1).2
  have b6' : d2 ≤ 31 := le_trans b6 (daysInMonth_ge y2 m2).2
  have hdata := congrArg String.data he
  simp only [pyDateStr, pad4, pad2, List.cons_append, List.nil_append,
    List.cons.injEq, and_true] at hdata
  obtain ⟨e1, e2, e3, e4, e5, e6, e7, e8⟩ := hdata
  have g1 := digitChar_inj _ _ e1
  have g2 := digitChar_inj _ _ e2
  have g3 := digitChar_inj _ _ e3
  have g4 := digitChar_inj _ _ e4
  have g5 := digitChar_inj _ _ e5
  have g6 := digitChar_inj _ _ e6
  have g7 := digitChar_inj _ _ e7
  have g8 := digitChar_inj _ _ e8
  simp only [PyDate.mk.injEq]
  omega

-- ### Window lemmas ###

theorem prepareDateListAux_zero (c t : PyDate) : prepareDateListAux 0 c t = [] := rfl

theorem prepareDateListAux_succ (fuel : Nat) (c t : PyDate) :
    prepareDateListAux (fuel + 1) c t =
      if c.Valid then
        if t.toOrdinal ≤ c.toOrdinal then
          pyDateStr c :: prepareDateListAux fuel c.pred t
        else []
      else [] := rfl

theorem pred_iterate_facts (today : PyDate) (hv : today.Valid) :
    ∀ i : Nat, (i : Int) + 1 ≤ today.toOrdinal →
      (PyDate.pred^[i] today).Valid ∧
      (PyDate.pred^[i] today).toOrdinal = today.toOrdinal - i := by
  intro i
  induction i with
  | zero =>
    intro _
    refine ⟨by simpa using hv, ?_⟩
    simp
  | succ k ih =>
    intro h
    have hk : (k : Int) + 1 ≤ today.toOrdinal := by push_cast at h ⊢; omega
    obtain ⟨hkv, hko⟩ := ih hk
    have hne : PyDate.pred^[k] today ≠ ⟨1, 1, 1⟩ := by
      intro he
      rw [he] at hko
      have hmin : (PyDate.mk 1 1 1).toOrdinal = 1 := by decide
      push_cast at h
      omega
    rw [Function.iterate_succ_apply']
    refine ⟨PyDate.pred_valid _ hkv hne, ?_⟩
    rw [PyDate.pred_toOrdinal _ hkv, hko]
    push_cast
    ring

theorem prepareDateListAux_eq_map (target : PyDate) (htv : target.Valid) :
    ∀ n : Nat, ∀ today : PyDate, today.Valid →
      today.toOrdinal - target.toOrdinal = n →
      prepareDateListAux (n + 1) today target =
        (List.range (n + 1)).map (fun i => pyDateStr (PyDate.pred^[i] today)) := by
  intro n
  induction n with
  | zero =>
    intro today hv heq
    have hle : target.toOrdinal ≤ today.toOrdinal := by omega
    rw [prepareDateListAux_succ, if_pos hv, if_pos hle, prepareDateListAux_zero]
    simp [List.range_succ]
  | succ k ih =>
    intro today hv heq
    have hle : target.toOrdinal ≤ today.toOrdinal := by push_cast at heq; omega
    have htord := PyDate.one_le_toOrdinal target htv
    have hne : today ≠ ⟨1, 1, 1⟩ := by
      intro he
      have h1 : today.toOrdinal = 1 := by rw [he]; decide
      push_cast at heq
      omega
    have hpv := PyDate.pred_valid today hv hne
    have hpo := PyDate.pred_toOrdinal today hv
    rw [prepareDateListAux_succ, if_pos hv, if_pos hle]
    rw [ih today.pred hpv (by push_cast at heq ⊢; omega)]
    conv_rhs => rw [List.range_succ_eq_map]
    simp only [List.map_cons, List.map_map, Function.iterate_zero_apply]
    congr 1

theorem prepareDateList_eq_map (today target : PyDate)
    (hv : today.Valid) (htv : target.Valid)
    (hle : target.toOrdinal ≤ today.toOrdinal) :
    prepareDateList today target =
      (List.range ((pyDateDiffDays today target).toNat + 1)).map
        (fun i => pyDateStr (PyDate.pred^[i] today)) := by
  have hfuel : (today.toOrdinal + 1 - target.toOrdinal).toNat
      = (pyDateDiffDays today target).toNat + 1 := by
    simp only [pyDateDiffDays]; omega
  rw [prepareDateList, hfuel]
  exact prepareDateListAux_eq_map target htv _ today hv (by simp [pyDateDiffDays]; omega)

-- ### Parser and builder helper lemmas ###

theorem buildRecord_ok_fields (code : String) (lastc : Char)
    (hl : code.data.getLast? = some lastc)
    (c1 c2 c3 c4 c5 : Cell) (str_date : String) (t : PyDate)
    (hp : parseYYYYMMDD str_date = some t) :
    buildRecord [Cell.str code, c1, c2, c3, c4, c5] str_date =
      Except.ok
        { exchange_product_id := code
          exchange_product_name := pyStr c1
          oil_id := ⟨code.data.take 4⟩
          delivery_basis_id := ⟨(code.data.drop 4).take 3⟩
          delivery_basis_name := pyStr c2
          delivery_type_id := ⟨[lastc]⟩
          volume := pyStr c3
          total := pyStr c4
          count := pyStr c5
          date := t } := by
  simp [buildRecord, hl, hp]

-- ### Cleanup lemmas ###

theorem removeExcel_subset : ∀ (dl : List String) (fs : FS) (p : String × Option Frame),
    p ∈ removeExcel dl fs → p ∈ fs := by
  intro dl
  induction dl with
  | nil => intro fs p hp; exact hp
  | cons a t ih =>
    intro fs p hp
    have := ih _ p hp
    exact List.mem_of_mem_filter this

theorem removeExcel_removes : ∀ (dl : List String) (fs : FS) (d : String), d ∈ dl →
    ∀ p ∈ removeExcel dl fs, p.1 ≠ excelName d := by
  intro dl
  induction dl with
  | nil => intro fs d hd; cases hd
  | cons a t ih =>
    intro fs d hd p hp
    rcases List.mem_cons.mp hd with he | ht
    · subst he
      have hsub : p ∈ fs.filter (fun q => q.1 ≠ excelName d) :=
        removeExcel_subset t _ p hp
      have := (List.mem_filter.mp hsub).2
      simpa using this
    · exact ih _ d ht p hp

theorem run_fs_eq (env : RunEnv) :
    (getSpimexTradingResults env).fs
      = removeExcel (prepareDateList env.today env.target) (env.downloadFiles ++ env.fsInit) := by
  unfold getSpimexTradingResults
  rcases hb : env.downloadFails
  · simp only [hb, Bool.false_eq_true, if_false]
    rcases hpo : prepareObjects (prepareDateList env.today env.target)
        (env.downloadFiles ++ env.fsInit) with e | objs
    · simp [hpo]
    · rcases hs : env.storeFails <;> simp [hpo, hs]
  · simp [hb]

theorem run_never_commits (env : RunEnv) :
    (getSpimexTradingResults env).session.committed = env.session.committed := by
  unfold getSpimexTradingResults
  rcases hb : env.downloadFails
  · simp only [hb, Bool.false_eq_true, if_false]
    rcases hpo : prepareObjects (prepareDateList env.today env.target)
        (env.downloadFiles ++ env.fsInit) with e | objs
    · simp [hpo, DBSession.close]
    · rcases hs : env.storeFails <;> simp [hpo, hs, DBSession.close, DBSession.add_all]
  · simp [hb, DBSession.close]

-- ### CRUD helper lemmas ###

theorem listMaxInt_eq_none_iff (l : List Int) : listMaxInt l = none ↔ l = [] := by
  cases l with
  | nil => simp [listMaxInt]
  | cons x t =>
    simp only [listMaxInt]
    cases listMaxInt t <;> simp

theorem listMaxInt_mem : ∀ (l : List Int) (m : Int), listMaxInt l = some m → m ∈ l := by
  intro l
  induction l with
  | nil => intro m h; cases h
  | cons x t ih =>
    intro m h
    simp only [listMaxInt] at h
    cases ht : listMaxInt t with
    | none =>
      rw [ht] at h
      simp only [Option.some.injEq] at h
      simp [← h]
    | some k =>
      rw [ht] at h
      simp only [Option.some.injEq] at h
      rcases max_choice x k with hm | hm
      · subst h; rw [hm]; simp
      · subst h; rw [hm]; exact List.mem_cons_of_mem _ (ih k ht)

theorem listMaxInt_ge : ∀ (l : List Int) (m : Int), listMaxInt l = some m →
    ∀ x ∈ l, x ≤ m := by
  intro l
  induction l with
  | nil => intro m _ x hx; cases hx
  | cons a t ih =>
    intro m h x hx
    simp only [listMaxInt] at h
    cases ht : listMaxInt t with
    | none =>
      rw [ht] at h
      simp only [Option.some.injEq] at h
      have : t = [] := (listMaxInt_eq_none_iff t).mp ht
      subst this
      simp at hx
      omega
    | some k =>
      rw [ht] at h
      simp only [Option.some.injEq] at h
      rcases List.mem_cons.mp hx with he | hm
      · subst he; omega
      · have := ih k ht x hm
        omega

-- ### Claim theorems ###

/-- C4: for every target date not after today (both valid Python dates), the
ingestion window built by `__prepare_date_list` is the list of the
`(today - targetDate).days + 1` calendar dates walked backward from today,
each formatted YYYYMMDD; the walked dates stay valid with ordinals descending
by exactly one per step, the walk ends at the target date itself, and the
resulting list of strings has no duplicate entries. -/
theorem prepare_date_list_window_spec (today target : PyDate)
    (hv : today.Valid) (htv : target.Valid)
    (hle : target.toOrdinal ≤ today.toOrdinal) :
    prepareDateList today target =
      (List.range ((pyDateDiffDays today target).toNat + 1)).map
        (fun i => pyDateStr (PyDate.pred^[i] today)) ∧
    (prepareDateList today target).length = (pyDateDiffDays today target).toNat + 1 ∧
    (∀ i : Nat, i ≤ (pyDateDiffDays today target).toNat →
      (PyDate.pred^[i] today).Valid ∧
      (PyDate.pred^[i] today).toOrdinal = today.toOrdinal - i) ∧
    PyDate.pred^[(pyDateDiffDays today target).toNat] today = target ∧
    (prepareDateList today target).Nodup := by
  have htord := PyDate.one_le_toOrdinal target htv
  have hN : ((pyDateDiffDays today target).toNat : Int)
      = today.toOrdinal - target.toOrdinal := by
    simp only [pyDateDiffDays]; omega
  have hchain : ∀ i : Nat, i ≤ (pyDateDiffDays today target).toNat →
      (PyDate.pred^[i] today).Valid ∧
      (PyDate.pred^[i] today).toOrdinal = today.toOrdinal - i := by
    intro i hi
    apply pred_iterate_facts today hv
    have : (i : Int) ≤ ((pyDateDiffDays today target).toNat : Int) := by exact_mod_cast hi
    omega
  have hend : PyDate.pred^[(pyDateDiffDays today target).toNat] today = target := by
    obtain ⟨hvN, hoN⟩ := hchain _ le_rfl
    have h1 : (PyDate.pred^[(pyDateDiffDays today target).toNat] today).toOrdinal
        = target.toOrdinal := by omega
    apply PyDate.toOrdinal_injOn target.toOrdinal.toNat _ _ hvN htv
    · rw [h1]; omega
    · omega
  refine ⟨prepareDateList_eq_map today target hv htv hle, ?_, hchain, hend, ?_⟩
  · rw [prepareDateList_eq_map today target hv htv hle]
    simp
  · rw [prepareDateList_eq_map today target hv htv hle]
    apply List.Nodup.map_on
    · intro i hi j hj hf
      simp only [List.mem_range] at hi hj
      obtain ⟨hvi, hoi⟩ := hchain i (by omega)
      obtain ⟨hvj, hoj⟩ := hchain j (by omega)
      have hij := pyDateStr_inj _ _ hvi hvj hf
      have hoij : (PyDate.pred^[i] today).toOrdinal
          = (PyDate.pred^[j] today).toOrdinal := by rw [hij]
      omega
    · exact List.nodup_range _

/-- Witness for C4 at today = 2024-01-05, target = 2024-01-03. -/
theorem prepare_date_list_window_spec_witness :
    ((PyDate.mk 2024 1 5).Valid ∧ (PyDate.mk 2024 1 3).Valid ∧
      (PyDate.mk 2024 1 3).toOrdinal ≤ (PyDate.mk 2024 1 5).toOrdinal) ∧
    (prepareDateList ⟨2024, 1, 5⟩ ⟨2024, 1, 3⟩ =
      (List.range ((pyDateDiffDays ⟨2024, 1, 5⟩ ⟨2024, 1, 3⟩).toNat + 1)).map
        (fun i => pyDateStr (PyDate.pred^[i] ⟨2024, 1, 5⟩)) ∧
    (prepareDateList ⟨2024, 1, 5⟩ ⟨2024, 1, 3⟩).length
        = (pyDateDiffDays ⟨2024, 1, 5⟩ ⟨2024, 1, 3⟩).toNat + 1 ∧
    (∀ i : Nat, i ≤ (pyDateDiffDays ⟨2024, 1, 5⟩ ⟨2024, 1, 3⟩).toNat →
      (PyDate.pred^[i] ⟨2024, 1, 5⟩).Valid ∧
      (PyDate.pred^[i] (PyDate.mk 2024 1 5)).toOrdinal
          = (PyDate.mk 2024 1 5).toOrdinal - i) ∧
    PyDate.pred^[(pyDateDiffDays ⟨2024, 1, 5⟩ ⟨2024, 1, 3⟩).toNat] (PyDate.mk 2024 1 5)
        = ⟨2024, 1, 3⟩ ∧
    (prepareDateList ⟨2024, 1, 5⟩ ⟨2024, 1, 3⟩).Nodup) :=
  ⟨⟨by decide, by decide, by decide⟩,
    prepare_date_list_window_spec ⟨2024, 1, 5⟩ ⟨2024, 1, 3⟩ (by decide) (by decide) (by decide)⟩

/-- C5: every row yielded by the bulletin parser carries a strictly positive
integer in its last retained column; rows whose last column converts to zero
or a negative value are filtered out before yielding and so are never turned
into records. -/
theorem parser_rows_strictly_positive (df : Frame) (rows : List (List Cell))
    (h : parseFrame df = Except.ok rows) :
    ∀ r ∈ rows, 0 < (cellToInt? (lastCell r)).getD 0 := by
  intro r hr
  simp only [parseFrame, processRows] at h
  split_ifs at h with hc
  · simp only [Except.ok.injEq] at h
    rw [← h] at hr
    exact of_decide_eq_true (List.mem_filter.mp hr).2

/-- Witness for C5 on the concrete test bulletin. -/
theorem parser_rows_strictly_positive_witness :
    parseFrame testFrame = Except.ok [testRow] ∧
    ∀ r ∈ [testRow], 0 < (cellToInt? (lastCell r)).getD 0 :=
  ⟨rfl, parser_rows_strictly_positive testFrame [testRow] rfl⟩

/-- C6: a record built by `__prepare_objects` from a parsed row takes
exchange_product_id verbatim, oil_id as the first four characters of the
product code, delivery_basis_id as the characters at zero-based positions
4 through 6, delivery_type_id as the last character, copies the name,
delivery-basis name, volume, total and count cells through str(), and attaches
the date parsed back from the window's YYYYMMDD string. -/
theorem build_record_field_derivation (code : String) (lastc : Char)
    (hl : code.data.getLast? = some lastc)
    (c1 c2 c3 c4 c5 : Cell) (str_date : String) (t : PyDate)
    (hp : parseYYYYMMDD str_date = some t) :
    buildRecord [Cell.str code, c1, c2, c3, c4, c5] str_date =
      Except.ok
        { exchange_product_id := code
          exchange_product_name := pyStr c1
          oil_id := ⟨code.data.take 4⟩
          delivery_basis_id := ⟨(code.data.drop 4).take 3⟩
          delivery_basis_name := pyStr c2
          delivery_type_id := ⟨[lastc]⟩
          volume := pyStr c3
          total := pyStr c4
          count := pyStr c5
          date := t } :=
  buildRecord_ok_fields code lastc hl c1 c2 c3 c4 c5 str_date t hp

/-- Witness for C6 at the concrete row of the test bulletin. -/
theorem build_record_field_derivation_witness :
    ("A100ABW1" : String).data.getLast? = some '1' ∧
    parseYYYYMMDD "20240105" = some ⟨2024, 1, 5⟩ ∧
    buildRecord [Cell.str "A100ABW1", Cell.str "Product", Cell.str "Basis",
        Cell.num 10, Cell.num 100, Cell.num 5] "20240105" =
      Except.ok
        { exchange_product_id := "A100ABW1"
          exchange_product_name := pyStr (Cell.str "Product")
          oil_id := ⟨("A100ABW1" : String).data.take 4⟩
          delivery_basis_id := ⟨(("A100ABW1" : String).data.drop 4).take 3⟩
          delivery_basis_name := pyStr (Cell.str "Basis")
          delivery_type_id := ⟨['1']⟩
          volume := pyStr (Cell.num 10)
          total := pyStr (Cell.num 100)
          count := pyStr (Cell.num 5)
          date := ⟨2024, 1, 5⟩ } :=
  ⟨rfl, rfl,
    build_record_field_derivation "A100ABW1" '1' rfl (Cell.str "Product") (Cell.str "Basis")
      (Cell.num 10) (Cell.num 100) (Cell.num 5) "20240105" ⟨2024, 1, 5⟩ rfl⟩

/-- C7 counterexample: with the empty product code the record build fails
(`data[0][-1]` raises IndexError on an empty string) instead of producing
empty derived fields, so the claim's "including the empty string" is false. -/
theorem build_record_empty_code_fails :
    buildRecord [Cell.str "", Cell.str "n", Cell.str "b",
      Cell.num 1, Cell.num 2, Cell.num 3] "20240105" = Except.error () := rfl

/-- C7 amended: for a nonempty product code of fewer than five characters the
record build does not fail; the missing positions yield the empty string
(delivery_basis_id = "") and oil_id degrades to the whole code. -/
theorem build_record_short_code_fields (code : String) (h1 : code.data ≠ [])
    (h2 : code.data.length ≤ 4)
    (c1 c2 c3 c4 c5 : Cell) (str_date : String) (t : PyDate)
    (hp : parseYYYYMMDD str_date = some t) :
    ∃ lastc, code.data.getLast? = some lastc ∧
      buildRecord [Cell.str code, c1, c2, c3, c4, c5] str_date =
        Except.ok
          { exchange_product_id := code
            exchange_product_name := pyStr c1
            oil_id := code
            delivery_basis_id := ""
            delivery_basis_name := pyStr c2
            delivery_type_id := ⟨[lastc]⟩
            volume := pyStr c3
            total := pyStr c4
            count := pyStr c5
            date := t } := by
  obtain ⟨lastc, hl⟩ : ∃ c, code.data.getLast? = some c := by
    cases hc : code.data.getLast? with
    | none => exact absurd (List.getLast?_eq_none_iff.mp hc) h1
    | some c => exact ⟨c, rfl⟩
  refine ⟨lastc, hl, ?_⟩
  rw [buildRecord_ok_fields code lastc hl c1 c2 c3 c4 c5 str_date t hp]
  have htake : code.data.take 4 = code.data := List.take_of_length_le h2
  have hdrop : code.data.drop 4 = [] := List.drop_eq_nil_of_le h2
  simp only [htake, hdrop, List.take_nil]

/-- Witness for the amended C7 at the two-character code "AB". -/
theorem build_record_short_code_fields_witness :
    (("AB" : String).data ≠ [] ∧ ("AB" : String).data.length ≤ 4 ∧
      parseYYYYMMDD "20240105" = some ⟨2024, 1, 5⟩) ∧
    (∃ lastc, ("AB" : String).data.getLast? = some lastc ∧
      buildRecord [Cell.str "AB", Cell.str "n", Cell.str "b",
          Cell.num 1, Cell.num 2, Cell.num 3] "20240105" =
        Except.ok
          { exchange_product_id := "AB"
            exchange_product_name := pyStr (Cell.str "n")
            oil_id := "AB"
            delivery_basis_id := ""
            delivery_basis_name := pyStr (Cell.str "b")
            delivery_type_id := ⟨[lastc]⟩
            volume := pyStr (Cell.num 1)
            total := pyStr (Cell.num 2)
            count := pyStr (Cell.num 3)
            date := ⟨2024, 1, 5⟩ }) :=
  ⟨⟨by decide, by decide, rfl⟩,
    build_record_short_code_fields "AB" (by decide) (by decide) (Cell.str "n") (Cell.str "b")
      (Cell.num 1) (Cell.num 2) (Cell.num 3) "20240105" ⟨2024, 1, 5⟩ rfl⟩

/-- C10 counterexample: a marker-free bulletin whose only data row has a zero
last column parses without failure but yields an empty output, refuting the
claim's "does not yield nothing". -/
theorem parser_no_marker_yields_nothing_cex :
    noMarkerFrame.all (fun row => !rowMatchesMarker row) = true ∧
    noMarkerFrame.length = 5 ∧
    parseFrame noMarkerFrame = Except.ok [] :=
  ⟨rfl, rfl, rfl⟩

/-- C10 amended: when no row of the frame contains the metric-ton marker in
the scanned column, the anchor index defaults to 0 and the parser processes
rows 2 through the third-from-last row exactly as if the first row were the
anchor (the output may still be empty after zero-filtering). -/
theorem parser_no_marker_default_anchor (df : Frame)
    (h : ∀ row ∈ df, rowMatchesMarker row = false) :
    findAnchor df = 0 ∧ parseFrame df = processRows (df.drop 2) := by
  have hnone : df.findIdx? rowMatchesMarker = none := by
    rw [List.findIdx?_eq_none_iff]
    intro x hx
    simp [h x hx]
  constructor
  · simp [findAnchor, hnone]
  · simp [parseFrame, findAnchor, hnone]

/-- Witness for the amended C10 on the concrete marker-free bulletin. -/
theorem parser_no_marker_default_anchor_witness :
    (∀ row ∈ noMarkerFrame, rowMatchesMarker row = false) ∧
    (findAnchor noMarkerFrame = 0 ∧
      parseFrame noMarkerFrame = processRows (noMarkerFrame.drop 2)) :=
  ⟨by decide, parser_no_marker_default_anchor noMarkerFrame (by decide)⟩

/-- C2: on every exit path of an ingestion run (success, download failure,
parse/build failure, or store failure), no file named `<YYYYMMDD>_oil_data.xls`
for a date of the run's window remains on disk afterwards: the finally-block
cleanup removes every such file. -/
theorem ingestion_cleans_window_files (env : RunEnv) (d : String)
    (hd : d ∈ prepareDateList env.today env.target) :
    ∀ p ∈ (getSpimexTradingResults env).fs, p.1 ≠ excelName d := by
  intro p hp
  rw [run_fs_eq env] at hp
  exact removeExcel_removes _ _ d hd p hp

/-- Witness for C2 on the concrete single-date run. -/
theorem ingestion_cleans_window_files_witness :
    "20240105" ∈ prepareDateList c1Env.today c1Env.target ∧
    ∀ p ∈ (getSpimexTradingResults c1Env).fs, p.1 ≠ excelName "20240105" :=
  ⟨by decide, ingestion_cleans_window_files c1Env "20240105" (by decide)⟩

/-- C8: the ingestion run reports the single generic HTTP 400 error exactly
when the download step, the parse/build step, or the store step raises, and
otherwise returns the success acknowledgment message. -/
theorem ingestion_error_iff_step_fails (env : RunEnv) :
    ((getSpimexTradingResults env).result = Except.error ingestionError ↔
      (env.downloadFails = true ∨
        prepareObjects (prepareDateList env.today env.target) (env.downloadFiles ++ env.fsInit)
          = Except.error () ∨
        env.storeFails = true)) ∧
    (¬(env.downloadFails = true ∨
        prepareObjects (prepareDateList env.today env.target) (env.downloadFiles ++ env.fsInit)
          = Except.error () ∨
        env.storeFails = true) →
      (getSpimexTradingResults env).result = Except.ok successMessage) := by
  rcases hb : env.downloadFails <;>
    rcases hpo : prepareObjects (prepareDateList env.today env.target)
        (env.downloadFiles ++ env.fsInit) with e | objs <;>
      rcases hs : env.storeFails <;>
        first
          | (cases e;
             simp [getSpimexTradingResults, hb, hpo, hs, ingestionError, successMessage])
          | simp [getSpimexTradingResults, hb, hpo, hs, ingestionError, successMessage]

/-- Witness for C8: the concrete successful run returns the success message. -/
theorem ingestion_error_iff_step_fails_witness :
    (getSpimexTradingResults c3Env).result = Except.ok successMessage :=
  (ingestion_error_iff_step_fails c3Env).2 (by decide)

/-- C1 counterexample: a run whose single window date already has a persisted
record still completes successfully and hands the store a fresh batch for that
same trade date - the coordinator performs no existence check. -/
theorem ingestion_rewrites_already_stored_date :
    c1Env.session.committed.any (fun r => r.date = (⟨2024, 1, 5⟩ : PyDate)) = true ∧
    (getSpimexTradingResults c1Env).batch.any
      (fun r => r.date = (⟨2024, 1, 5⟩ : PyDate)) = true ∧
    (getSpimexTradingResults c1Env).result = Except.ok successMessage :=
  ⟨rfl, rfl, rfl⟩

/-- C1 amended: the ingestion coordinator never consults the store before
fetching or writing - the batch it hands to add_to_db, and its result, are
the same whatever records the store already holds. -/
theorem ingestion_ignores_existing_records (env : RunEnv) (s1 s2 : DBSession) :
    (getSpimexTradingResults { env with session := s1 }).batch
        = (getSpimexTradingResults { env with session := s2 }).batch ∧
    (getSpimexTradingResults { env with session := s1 }).result
        = (getSpimexTradingResults { env with session := s2 }).result := by
  unfold getSpimexTradingResults
  rcases hb : env.downloadFails
  · simp only [hb]
    rcases hpo : prepareObjects (prepareDateList env.today env.target)
        (env.downloadFiles ++ env.fsInit) with e | objs
    · simp [hpo]
    · rcases hs : env.storeFails <;> simp [hpo, hs]
  · simp [hb]

/-- C3 (code bug): a fully successful ingestion run stages a nonempty batch in
the session, returns the success message, and yet persists nothing, because
add_to_db only calls session.add_all and nothing ever commits before the
request-scoped session closes; in general the committed store is unchanged by
every run. -/
theorem ingestion_success_persists_nothing :
    (getSpimexTradingResults c3Env).batch ≠ [] ∧
    (getSpimexTradingResults c3Env).result = Except.ok successMessage ∧
    (getSpimexTradingResults c3Env).session.committed = [] ∧
    (∀ env : RunEnv, (getSpimexTradingResults env).session.committed
      = env.session.committed) :=
  ⟨by decide, rfl, rfl, run_never_commits⟩

/-- C9: querying the last trading results over an empty store raises the 404
"Database is empty!" error rather than returning an empty list; over a
nonempty store it returns exactly the records of the maximum (most recent)
trade date, run through the truthy facet filters. -/
theorem last_results_empty_store_spec (store : List SpimexTradingResults)
    (oil_id delivery_type_id delivery_basis_id : Option String) :
    (store = [] →
      get_last_results store oil_id delivery_type_id delivery_basis_id
        = Except.error emptyStoreError) ∧
    (store ≠ [] → ∃ m : Int,
      (∃ r ∈ store, r.date.toOrdinal = m) ∧
      (∀ r ∈ store, r.date.toOrdinal ≤ m) ∧
      get_last_results store oil_id delivery_type_id delivery_basis_id
        = Except.ok (addFiltersToQuery (store.filter (fun r => r.date.toOrdinal = m))
            oil_id delivery_type_id delivery_basis_id)) := by
  constructor
  · intro h
    subst h
    rfl
  · intro h
    cases hm : listMaxInt (store.map (fun r => r.date.toOrdinal)) with
    | none =>
      have := (listMaxInt_eq_none_iff _).mp hm
      simp only [List.map_eq_nil_iff] at this
      exact absurd this h
    | some m =>
      refine ⟨m, ?_, ?_, ?_⟩
      · have := listMaxInt_mem _ m hm
        simpa using this
      · intro r hr
        exact listMaxInt_ge _ m hm _ (List.mem_map_of_mem _ hr)
      · simp [get_last_results, hm]

/-- Witness for C9: the empty store errors; a one-record store returns that
record's date as the maximum. -/
theorem last_results_empty_store_spec_witness :
    get_last_results [] none none none = Except.error emptyStoreError ∧
    (∃ m : Int,
      (∃ r ∈ [existingRecord], r.date.toOrdinal = m) ∧
      (∀ r ∈ [existingRecord], r.date.toOrdinal ≤ m) ∧
      get_last_results [existingRecord] none none none
        = Except.ok (addFiltersToQuery
            ([existingRecord].filter (fun r => r.date.toOrdinal = m)) none none none)) :=
  ⟨(last_results_empty_store_spec [] none none none).1 rfl,
    (last_results_empty_store_spec [existingRecord] none none none).2 (by simp)⟩
